import Mathlib

/-!
Verification of the color-bridge core of `bridge.py` (icuemagic).

The Python source is shallowly embedded: each method becomes a Lean
function over an explicit state record; external SDK / device behaviour
(reads, writes, connection attempts) is supplied through oracle
parameters; a Python method that can either return a value or raise is
modelled by `PyResult`, which carries the mutated state in both cases.
Numbers are exact (ℕ / ℤ / ℚ); Python's `int(...)` truncation toward
zero is `pyInt`.
-/

/-- One per-LED color reading `(led.r, led.g, led.b)`: three channel
intensities. -/
abbrev LedColor := ℕ × ℕ × ℕ

/-- An aggregate (average) color as computed by `get_average_color`. -/
abbrev AvgColor := ℕ × ℕ × ℕ

/-- Python `int(q)`: truncation toward zero of an exact rational. -/
def pyInt (q : ℚ) : ℤ := if q < 0 then ⌈q⌉ else ⌊q⌋

/-- The per-channel averaging of `get_average_color` (lines 158-164):
`total_r = sum(...)`, `count = len(led_colors)`, `avg = int(total/count)`.
For non-negative totals Python's `int(total/count)` is natural-number
division. -/
def average (colors : List LedColor) : AvgColor :=
  ((colors.map (fun c => c.1)).sum / colors.length,
   (colors.map (fun c => c.2.1)).sum / colors.length,
   (colors.map (fun c => c.2.2)).sum / colors.length)

/-- The mutable state of an `iCueController` object: whether
`self.device` is set, the discovered `self.led_ids`, and
`self.last_colors` (the tuple of per-LED colors from the last accepted
reading, `None` initially). -/
structure ICueState where
  device : Bool
  led_ids : List ℕ
  last_colors : Option (List LedColor)
deriving DecidableEq, Repr

/-- Outcome of a Python method that mutates `self` and either returns a
value or raises: both constructors carry the state of `self` at that
point. -/
inductive PyResult (α : Type) where
  | ret (s : ICueState) (v : α)
  | raise (s : ICueState)
deriving DecidableEq, Repr

/-- Oracle for one `self.sdk.get_led_colors` call: it either raises, or
yields a list of per-LED colors (`ok []` also covers a falsy/`None`
result, which line 147's `if not led_colors` treats identically). -/
inductive ReadResult where
  | ok (colors : List LedColor)
  | exn
deriving DecidableEq, Repr

/-- Oracle for one `reconnect()` call: `sdk.connect` can fail (raise at
line 178), `_find_device` can come back empty (raise at line 182), or
everything succeeds and the LED ids are re-discovered. -/
inductive ReconnectOutcome where
  | connectFail
  | deviceNotFound
  | ok (led_ids : List ℕ)
deriving DecidableEq, Repr

/-- `iCueController.reconnect` (lines 172-187): on success re-resolves
`self.device` and re-discovers `self.led_ids`; `self.last_colors` is
not touched.  On failure the exception is logged and re-raised
(`raise` at line 187); in the device-not-found case `self.device` was
already overwritten with `None` (line 180) before the raise. -/
def reconnect (o : ReconnectOutcome) (s : ICueState) : PyResult Unit :=
  match o with
  | .connectFail => .raise s
  | .deviceNotFound => .raise { s with device := false }
  | .ok ids => .ret { s with device := true, led_ids := ids } ()

/-- `iCueController.__init__` (lines 97-116): connect to the SDK
(raise on failure), find the device (raise when absent), discover the
LED ids; `self.last_colors` starts as `None`. -/
def iCueController_init (connect_ok : Bool) (device_found : Bool)
    (ids : List ℕ) : Option ICueState :=
  if connect_ok then
    if device_found then some ⟨true, ids, none⟩ else none
  else none

/-- `iCueController.get_average_color` (lines 137-170).  `oRead` is the
oracle for the `get_led_colors` call; `o1` is the oracle for the first
`reconnect()` this call makes (guard branch, empty-read branch, or the
`except` handler) and `o2` for the second one (the `except` handler
catches an exception raised by the empty-read branch's reconnect and
calls `reconnect()` again). -/
def get_average_color (oRead : ReadResult) (o1 o2 : ReconnectOutcome)
    (s : ICueState) : PyResult (Option AvgColor) :=
  if s.device = false ∨ s.led_ids = [] then
    match reconnect o1 s with
    | .ret s1 _ => .ret s1 none
    | .raise s1 => .raise s1
  else
    match oRead with
    | .exn =>
      match reconnect o1 s with
      | .ret s1 _ => .ret s1 none
      | .raise s1 => .raise s1
    | .ok colors =>
      if colors = [] then
        match reconnect o1 s with
        | .ret s1 _ => .ret s1 none
        | .raise s1 =>
          match reconnect o2 s1 with
          | .ret s2 _ => .ret s2 none
          | .raise s2 => .raise s2
      else
        if some colors = s.last_colors then .ret s none
        else
          .ret { s with last_colors := some colors } (some (average colors))

/-- The list standing at the division of lines 162-164 when an
execution of `get_average_color` reaches it, and `none` when the
execution returns (or raises) earlier: the guard of line 138, the
read outcome, the `if not led_colors` check of line 147 and the
change-suppression check of line 153 all precede the division. -/
def divisionInput (oRead : ReadResult) (s : ICueState) :
    Option (List LedColor) :=
  if s.device = false ∨ s.led_ids = [] then none
  else
    match oRead with
    | .exn => none
    | .ok colors =>
      if colors = [] then none
      else if some colors = s.last_colors then none
      else some colors

/-- A color commanded to the target device (channels as integers, so
that interpolation arithmetic can be stated before any range fact is
proved). -/
abbrev Color := ℤ × ℤ × ℤ

/-- The mutable state of a `MagicHomeController` object: whether
`self.bulb` holds a connected bulb, `self.last_color`, and the
`self.transition_steps` field set to 10 in `__init__`
(`transition_delay` only paces the fade in real time and does not
affect any value, so it is not modelled). -/
structure MHState where
  bulb : Bool
  last_color : Option Color
  transition_steps : ℕ
deriving DecidableEq, Repr

/-- `MagicHomeController.__init__` (lines 190-195): no bulb yet, no
last color, 10 transition steps. -/
def MagicHomeController_init : MHState :=
  { bulb := false, last_color := none, transition_steps := 10 }

/-- `MagicHomeController.connect` (lines 197-204): on success
`self.bulb` is set; any exception is caught and leaves
`self.bulb = None`. -/
def connect (connect_ok : Bool) (s : MHState) : MHState :=
  { s with bulb := connect_ok }

/-- One channel of `interpolate_color`:
`int(start + (end - start) * progress)`. -/
def interpCh (s e : ℤ) (progress : ℚ) : ℤ :=
  pyInt (s + (e - s) * progress)

/-- `MagicHomeController.interpolate_color` (lines 206-211):
channel-wise `int(start + (end - start) * progress)` with exact
rational `progress`. -/
def interpolate_color (start_color end_color : Color) (progress : ℚ) :
    Color :=
  (interpCh start_color.1 end_color.1 progress,
   interpCh start_color.2.1 end_color.2.1 progress,
   interpCh start_color.2.2 end_color.2.2 progress)

/-- The fade of `set_color` (lines 224-227): the colors passed to
`setRgb` for `step in range(1, n + 1)`, step `i` using
`progress = i / n`. -/
def fadeSequence (start_color end_color : Color) (n : ℕ) : List Color :=
  (List.range' 1 n).map
    (fun (i : ℕ) => interpolate_color start_color end_color ((i : ℚ) / (n : ℚ)))

/-- The fade loop of `set_color` (lines 224-236): attempt the writes in
order; a write whose oracle says `false` raises inside `setRgb`, the
handler sets `self.bulb = None` and returns.  Yields the list of colors
actually passed to `setRgb` (the failing attempt included) and whether
every step succeeded.  `writeOk i` is the outcome of the i-th `setRgb`
call of this `set_color` invocation. -/
def runFade (writeOk : ℕ → Bool) : List (ℕ × Color) → List Color × Bool
  | [] => ([], true)
  | (i, c) :: rest =>
    if writeOk i then
      let res := runFade writeOk rest
      (c :: res.1, res.2)
    else ([c], false)

/-- `MagicHomeController.set_color` (lines 213-248).  Returns the new
state and the trace of colors passed to `setRgb`.  If `self.bulb` is
unset, `connect()` is tried once and a still-unset bulb means an early
return with no write.  With a known `last_color` the 10-step
interpolated fade runs (a failing step disconnects and aborts, leaving
`last_color` unchanged); with no `last_color` the color is written
directly.  Only after every write of the taken branch succeeded is
`self.last_color` set to the new color. -/
def set_color (connect_ok : Bool) (writeOk : ℕ → Bool) (s : MHState)
    (c : Color) : MHState × List Color :=
  let s0 := if s.bulb then s else connect connect_ok s
  if s0.bulb = false then (s0, [])
  else
    match s0.last_color with
    | some lc =>
      let steps : List (ℕ × Color) := (List.range' 1 s0.transition_steps).map
        (fun i => (i,
          interpolate_color lc c ((i : ℚ) / (s0.transition_steps : ℚ))))
      let res := runFade writeOk steps
      if res.2 then ({ s0 with last_color := some c }, res.1)
      else ({ s0 with bulb := false }, res.1)
    | none =>
      if writeOk 1 then ({ s0 with last_color := some c }, [c])
      else ({ s0 with bulb := false }, [c])

/-- `MagicHomeController.turn_off` (lines 250-263): connect once if
needed (no-op when that fails), then issue the power-off command; a
failure there is caught and marks the bulb disconnected.  The returned
flag says whether the device power-off command was attempted.  The
method never raises: every exception is caught inside it. -/
def turn_off (connect_ok : Bool) (write_ok : Bool) (s : MHState) :
    MHState × Bool :=
  let s0 := if s.bulb then s else connect connect_ok s
  if s0.bulb = false then (s0, false)
  else if write_ok then (s0, true)
  else ({ s0 with bulb := false }, true)

/-- A method invocation the bridge loop makes on the target actuator. -/
inductive BridgeAction where
  | setColorCall (c : Color)
  | turnOffCall
deriving DecidableEq

/-- How a run of the `while True` loop of `start_bridge` ends:
`KeyboardInterrupt` (caught at line 334) or an `Exception` escaping the
loop body — only `icue.get_average_color()` can raise one — caught at
line 336. -/
inductive LoopExit where
  | interrupt
  | tickError
deriving DecidableEq

/-- Oracle for one completed tick of the bridge loop: the optional
color `get_average_color` produced, and the connect / per-write
outcomes for the `set_color` call made when a color is present. -/
structure TickOracle where
  sampled : Option Color
  connect_ok : Bool
  writeOk : ℕ → Bool

/-- The completed iterations of the `while True` loop (lines 329-333):
each tick samples; a `Some` color is forwarded to
`magic_home.set_color` (a returned 3-tuple is always truthy, so
`if color:` is exactly `isSome`); the actuator state threads through. -/
def bridge_loop (ticks : List TickOracle) (mh : MHState) :
    List BridgeAction × MHState :=
  match ticks with
  | [] => ([], mh)
  | t :: rest =>
    match t.sampled with
    | none => bridge_loop rest mh
    | some c =>
      let r := set_color t.connect_ok t.writeOk mh c
      let r2 := bridge_loop rest r.1
      (BridgeAction.setColorCall c :: r2.1, r2.2)

/-- The observable outcome of `start_bridge`: the actuator method
invocations it made, the final actuator state, and whether the
function returned normally (rather than letting an exception escape). -/
structure BridgeRun where
  trace : List BridgeAction
  finalMH : MHState
  returnsNormally : Bool

/-- `start_bridge` (lines 316-345).  A failed controller construction
is caught, logged and the function returns with no loop and no
`finally` (lines 318-324).  Otherwise the loop runs its completed
ticks, ends by `e` — both `except` arms swallow it — and the `finally`
block invokes `magic_home.turn_off()` exactly once, itself wrapped in
`try/except Exception`, so `start_bridge` returns normally whatever
the turn-off outcome. -/
def start_bridge (init_ok : Bool) (ticks : List TickOracle)
    (e : LoopExit) (mh0 : MHState) (off_connect_ok off_write_ok : Bool) :
    BridgeRun :=
  if init_ok = false then { trace := [], finalMH := mh0, returnsNormally := true }
  else
    let body := bridge_loop ticks mh0
    let handled : Bool :=
      match e with
      | .interrupt => true
      | .tickError => true
    let off := turn_off off_connect_ok off_write_ok body.2
    { trace := body.1 ++ [BridgeAction.turnOffCall],
      finalMH := off.1,
      returnsNormally := handled }

/-! ### Helper lemmas -/

lemma pyInt_of_nonneg {q : ℚ} (h : 0 ≤ q) : pyInt q = ⌊q⌋ := by
  simp only [pyInt, if_neg (not_lt.mpr h)]

lemma pyInt_intCast (n : ℤ) : pyInt (n : ℚ) = n := by
  rcases lt_or_le (n : ℚ) 0 with h | h
  · simp [pyInt, h]
  · simp [pyInt, not_lt.mpr h]

lemma pyInt_natCast_div (a b : ℕ) :
    pyInt ((a : ℚ) / (b : ℚ)) = ((a / b : ℕ) : ℤ) := by
  have h0 : (0 : ℚ) ≤ (a : ℚ) / (b : ℚ) := by positivity
  rw [pyInt_of_nonneg h0, ← Nat.floor_div_eq_div (α := ℚ) a b,
    ← Int.floor_toNat, Int.toNat_of_nonneg (Int.floor_nonneg.mpr h0)]

lemma interp_min_le {s e : ℤ} {p : ℚ} (hp0 : 0 ≤ p) (hp1 : p ≤ 1) :
    ((min s e : ℤ) : ℚ) ≤ (s : ℚ) + ((e : ℚ) - s) * p := by
  rcases le_total s e with h | h
  · rw [min_eq_left h]
    have h' : (s : ℚ) ≤ (e : ℚ) := by exact_mod_cast h
    nlinarith
  · rw [min_eq_right h]
    have h' : (e : ℚ) ≤ (s : ℚ) := by exact_mod_cast h
    nlinarith

lemma interp_le_max {s e : ℤ} {p : ℚ} (hp0 : 0 ≤ p) (hp1 : p ≤ 1) :
    (s : ℚ) + ((e : ℚ) - s) * p ≤ ((max s e : ℤ) : ℚ) := by
  rcases le_total s e with h | h
  · rw [max_eq_right h]
    have h' : (s : ℚ) ≤ (e : ℚ) := by exact_mod_cast h
    nlinarith
  · rw [max_eq_left h]
    have h' : (e : ℚ) ≤ (s : ℚ) := by exact_mod_cast h
    nlinarith

lemma interp_nonneg {s e : ℤ} {p : ℚ} (hs : 0 ≤ s) (he : 0 ≤ e)
    (hp0 : 0 ≤ p) (hp1 : p ≤ 1) :
    (0 : ℚ) ≤ (s : ℚ) + ((e : ℚ) - s) * p := by
  refine le_trans ?_ (interp_min_le hp0 hp1)
  have h : (0 : ℤ) ≤ min s e := le_min hs he
  exact_mod_cast h

lemma interpCh_bounds {s e : ℤ} {p : ℚ} (hs : 0 ≤ s) (he : 0 ≤ e)
    (hp0 : 0 ≤ p) (hp1 : p ≤ 1) :
    min s e ≤ interpCh s e p ∧ interpCh s e p ≤ max s e := by
  have hx := interp_nonneg hs he hp0 hp1
  rw [interpCh, pyInt_of_nonneg hx]
  constructor
  · exact Int.le_floor.mpr (interp_min_le hp0 hp1)
  · exact (Int.floor_mono (interp_le_max hp0 hp1)).trans_eq (Int.floor_intCast _)

lemma interpCh_mono {s e : ℤ} {p q : ℚ} (hs : 0 ≤ s) (he : 0 ≤ e)
    (hse : s ≤ e) (hp0 : 0 ≤ p) (hpq : p ≤ q) (hq1 : q ≤ 1) :
    interpCh s e p ≤ interpCh s e q := by
  have hp1 : p ≤ 1 := hpq.trans hq1
  have hq0 : 0 ≤ q := hp0.trans hpq
  rw [interpCh, interpCh, pyInt_of_nonneg (interp_nonneg hs he hp0 hp1),
    pyInt_of_nonneg (interp_nonneg hs he hq0 hq1)]
  apply Int.floor_mono
  have h : (0 : ℚ) ≤ (e : ℚ) - s := by
    have := sub_nonneg.mpr hse
    exact_mod_cast this
  nlinarith

lemma interpCh_anti {s e : ℤ} {p q : ℚ} (hs : 0 ≤ s) (he : 0 ≤ e)
    (hes : e ≤ s) (hp0 : 0 ≤ p) (hpq : p ≤ q) (hq1 : q ≤ 1) :
    interpCh s e q ≤ interpCh s e p := by
  have hp1 : p ≤ 1 := hpq.trans hq1
  have hq0 : 0 ≤ q := hp0.trans hpq
  rw [interpCh, interpCh, pyInt_of_nonneg (interp_nonneg hs he hp0 hp1),
    pyInt_of_nonneg (interp_nonneg hs he hq0 hq1)]
  apply Int.floor_mono
  have h : (e : ℚ) - s ≤ 0 := by
    have := sub_nonpos.mpr hes
    exact_mod_cast this
  nlinarith

lemma interpCh_one (s e : ℤ) : interpCh s e 1 = e := by
  have h : (s : ℚ) + ((e : ℚ) - s) * 1 = ((e : ℤ) : ℚ) := by ring
  rw [interpCh, h, pyInt_intCast]

lemma interpolate_color_one (s e : Color) : interpolate_color s e 1 = e := by
  rcases e with ⟨e1, e2, e3⟩
  simp [interpolate_color, interpCh_one]

lemma range'_take_min : ∀ (m a k : ℕ),
    (List.range' a m).take k = List.range' a (min k m) := by
  intro m
  induction m with
  | zero => intro a k; simp
  | succ m ih =>
    intro a k
    cases k with
    | zero => simp
    | succ k =>
      rw [List.range'_succ, List.take_succ_cons, ih (a + 1) k,
        Nat.succ_min_succ, List.range'_succ]

lemma runFade_all_ok (writeOk : ℕ → Bool) (f : ℕ → Color) :
    ∀ (m a : ℕ), (∀ i, a ≤ i → i < a + m → writeOk i = true) →
    runFade writeOk ((List.range' a m).map fun i => (i, f i)) =
      ((List.range' a m).map f, true) := by
  intro m
  induction m with
  | zero => intro a _; simp [runFade]
  | succ m ih =>
    intro a h
    rw [List.range'_succ, List.map_cons, List.map_cons, runFade,
      h a le_rfl (by omega), ih (a + 1) (fun i h1 h2 => h i (by omega) (by omega))]
    simp

lemma runFade_fail (writeOk : ℕ → Bool) (f : ℕ → Color) (k : ℕ)
    (hfail : writeOk k = false) :
    ∀ (m a : ℕ), a ≤ k → k < a + m →
    (∀ i, a ≤ i → i < k → writeOk i = true) →
    runFade writeOk ((List.range' a m).map fun i => (i, f i)) =
      ((List.range' a (k + 1 - a)).map f, false) := by
  intro m
  induction m with
  | zero => intro a h1 h2 _; omega
  | succ m ih =>
    intro a hak hkm hok
    rw [List.range'_succ, List.map_cons, runFade]
    by_cases hka : k = a
    · subst hka
      rw [hfail]
      simp [List.range'_one]
    · have ha : writeOk a = true := hok a le_rfl (by omega)
      rw [ha, ih (a + 1) (by omega) (by omega)
        (fun i h1 h2 => hok i (by omega) h2)]
      have h1 : k + 1 - a = (k - a) + 1 := by omega
      have h2 : k + 1 - (a + 1) = k - a := by omega
      rw [h2, h1, List.range'_succ, List.map_cons]
      simp

lemma sum_div_length_le {l : List ℕ} {B : ℕ} (h : ∀ x ∈ l, x ≤ B) :
    l.sum / l.length ≤ B := by
  rcases Nat.eq_zero_or_pos l.length with h0 | h0
  · simp [h0]
  · have hsum : l.sum ≤ B * l.length := by
      calc l.sum ≤ l.length • B := List.sum_le_card_nsmul l B h
      _ = B * l.length := by rw [smul_eq_mul, Nat.mul_comm]
    calc l.sum / l.length ≤ B * l.length / l.length := Nat.div_le_div_right hsum
    _ = B := Nat.mul_div_cancel B h0

lemma set_color_fade_branch (S E : Color) (n : ℕ) (co : Bool)
    (writeOk : ℕ → Bool) :
    set_color co writeOk ⟨true, some S, n⟩ E =
      (let res := runFade writeOk ((List.range' 1 n).map fun i =>
        (i, interpolate_color S E ((i : ℚ) / (n : ℚ))));
       if res.2 then (⟨true, some E, n⟩, res.1)
       else (⟨false, some S, n⟩, res.1)) := rfl

lemma set_color_fade_all_ok (S E : Color) (n : ℕ) (co : Bool)
    (writeOk : ℕ → Bool) (hw : ∀ i, 1 ≤ i → i ≤ n → writeOk i = true) :
    set_color co writeOk ⟨true, some S, n⟩ E =
      (⟨true, some E, n⟩, fadeSequence S E n) := by
  have h : runFade writeOk ((List.range' 1 n).map fun i =>
      (i, interpolate_color S E ((i : ℚ) / (n : ℚ)))) =
      (fadeSequence S E n, true) :=
    runFade_all_ok writeOk _ n 1 (fun i h1 h2 => hw i h1 (by omega))
  rw [set_color_fade_branch, h]
  rfl

lemma set_color_fade_fail (S E : Color) (n k : ℕ) (co : Bool)
    (writeOk : ℕ → Bool) (h1k : 1 ≤ k) (hkn : k ≤ n)
    (hw : ∀ i, 1 ≤ i → i < k → writeOk i = true) (hf : writeOk k = false) :
    set_color co writeOk ⟨true, some S, n⟩ E =
      (⟨false, some S, n⟩, (fadeSequence S E n).take k) := by
  have h2 : (fadeSequence S E n).take k =
      (List.range' 1 k).map
        (fun (i : ℕ) => interpolate_color S E ((i : ℚ) / (n : ℚ))) := by
    rw [fadeSequence, ← List.map_take, range'_take_min, Nat.min_eq_left hkn]
  have h : runFade writeOk ((List.range' 1 n).map fun i =>
      (i, interpolate_color S E ((i : ℚ) / (n : ℚ)))) =
      ((fadeSequence S E n).take k, false) := by
    have h0 := runFade_fail writeOk
      (fun i => interpolate_color S E ((i : ℚ) / (n : ℚ))) k hf n 1 h1k
      (by omega) (fun i hi1 hik => hw i hi1 hik)
    have h1 : k + 1 - 1 = k := by omega
    rw [h1] at h0
    rw [h2]
    exact h0
  rw [set_color_fade_branch, h]
  rfl

lemma set_color_direct (E : Color) (b : Bool) (n : ℕ)
    (writeOk : ℕ → Bool) (hw1 : writeOk 1 = true) :
    set_color true writeOk ⟨b, none, n⟩ E = (⟨true, some E, n⟩, [E]) := by
  cases b <;> rw [set_color] <;> simp [connect, hw1]

/-! ### Claim theorems -/

/-- The spec's phrasing of the aggregate, written independently of the
source: per channel, the exact arithmetic mean across all elements,
truncated toward zero. -/
def specTruncatedMean (colors : List LedColor) : ℤ × ℤ × ℤ :=
  (pyInt (((((colors.map (fun c => c.1)).sum : ℕ)) : ℚ) / (colors.length : ℚ)),
   pyInt (((((colors.map (fun c => c.2.1)).sum : ℕ)) : ℚ) / (colors.length : ℚ)),
   pyInt (((((colors.map (fun c => c.2.2)).sum : ℕ)) : ℚ) / (colors.length : ℚ)))

/-- C2 (confirmed): for every non-empty list of sampled LED elements
whose reading is accepted (device present, LEDs discovered, reading
different from `last_colors`), `get_average_color` returns the
`average` of the list, and per channel that value is the arithmetic
mean truncated toward zero; the spec's example
`[(255,0,0),(0,255,0)] ↦ (127,127,0)` is included. -/
theorem averaging_correctness (s : ICueState) (colors : List LedColor)
    (o1 o2 : ReconnectOutcome)
    (hdev : s.device = true) (hids : s.led_ids ≠ [])
    (hne : colors ≠ []) (hchg : some colors ≠ s.last_colors) :
    get_average_color (.ok colors) o1 o2 s =
      .ret { s with last_colors := some colors } (some (average colors)) ∧
    ((average colors).1 : ℤ) = (specTruncatedMean colors).1 ∧
    ((average colors).2.1 : ℤ) = (specTruncatedMean colors).2.1 ∧
    ((average colors).2.2 : ℤ) = (specTruncatedMean colors).2.2 ∧
    average [(255, 0, 0), (0, 255, 0)] = (127, 127, 0) := by
  refine ⟨?_, ?_, ?_, ?_, by decide⟩
  · rw [get_average_color]
    simp [hdev, hids, hne, hchg]
  all_goals
    simp only [average, specTruncatedMean]
    exact (pyInt_natCast_div _ _).symm

/-- Witness for `averaging_correctness` at the spec's example. -/
theorem averaging_correctness_witness :
    ((⟨true, [1, 2], none⟩ : ICueState).device = true ∧
     (⟨true, [1, 2], none⟩ : ICueState).led_ids ≠ [] ∧
     ([(255, 0, 0), (0, 255, 0)] : List LedColor) ≠ [] ∧
     some [(255, 0, 0), (0, 255, 0)] ≠
       (⟨true, [1, 2], none⟩ : ICueState).last_colors) ∧
    (get_average_color (.ok [(255, 0, 0), (0, 255, 0)]) .connectFail
        .connectFail ⟨true, [1, 2], none⟩ =
      .ret ⟨true, [1, 2], some [(255, 0, 0), (0, 255, 0)]⟩
        (some (average [(255, 0, 0), (0, 255, 0)])) ∧
     ((average [(255, 0, 0), (0, 255, 0)]).1 : ℤ) =
       (specTruncatedMean [(255, 0, 0), (0, 255, 0)]).1 ∧
     ((average [(255, 0, 0), (0, 255, 0)]).2.1 : ℤ) =
       (specTruncatedMean [(255, 0, 0), (0, 255, 0)]).2.1 ∧
     ((average [(255, 0, 0), (0, 255, 0)]).2.2 : ℤ) =
       (specTruncatedMean [(255, 0, 0), (0, 255, 0)]).2.2 ∧
     average [(255, 0, 0), (0, 255, 0)] = (127, 127, 0)) :=
  ⟨⟨rfl, by decide, by decide, by decide⟩,
   averaging_correctness ⟨true, [1, 2], none⟩ [(255, 0, 0), (0, 255, 0)]
     .connectFail .connectFail rfl (by decide) (by decide) (by decide)⟩

/-- C10 (confirmed): every execution of `get_average_color` that
reaches the per-channel division (captured by
`divisionInput = some l`) does so with a non-empty list, so
`count > 0` and the division is safe; on exactly those executions the
function returns the average of `l`. -/
theorem division_always_safe (oRead : ReadResult)
    (o1 o2 : ReconnectOutcome) (s : ICueState) (l : List LedColor)
    (h : divisionInput oRead s = some l) :
    0 < l.length ∧
    get_average_color oRead o1 o2 s =
      .ret { s with last_colors := some l } (some (average l)) := by
  by_cases hg : s.device = false ∨ s.led_ids = []
  · rw [divisionInput.eq_def, if_pos hg] at h
    exact absurd h (by simp)
  · cases oRead with
    | exn =>
      rw [divisionInput.eq_def, if_neg hg] at h
      exact absurd h (by simp)
    | ok colors =>
      rw [divisionInput.eq_def, if_neg hg] at h
      dsimp only at h
      by_cases hne : colors = []
      · rw [if_pos hne] at h
        exact absurd h (by simp)
      · rw [if_neg hne] at h
        by_cases hch : some colors = s.last_colors
        · rw [if_pos hch] at h
          exact absurd h (by simp)
        · rw [if_neg hch] at h
          have hcl : colors = l := by simpa using h
          subst hcl
          refine ⟨List.length_pos.mpr hne, ?_⟩
          rw [get_average_color, if_neg hg]
          simp [hne, hch]

/-- Witness for `division_always_safe` at a concrete input. -/
theorem division_always_safe_witness :
    divisionInput (.ok [(5, 5, 5)]) ⟨true, [1], none⟩ = some [(5, 5, 5)] ∧
    (0 < ([(5, 5, 5)] : List LedColor).length ∧
     get_average_color (.ok [(5, 5, 5)]) .connectFail .connectFail
         ⟨true, [1], none⟩ =
       .ret ⟨true, [1], some [(5, 5, 5)]⟩ (some (average [(5, 5, 5)]))) :=
  ⟨by decide,
   division_always_safe (.ok [(5, 5, 5)]) .connectFail .connectFail
     ⟨true, [1], none⟩ [(5, 5, 5)] (by decide)⟩

/-- C1 counterexample: two consecutive `get_average_color` calls whose
readings have the identical aggregate `(1,1,1)` (the per-LED tuples are
permutations of each other), yet the second call returns `some (1,1,1)`
rather than nothing — suppression compares the per-LED tuple
`last_colors`, not the aggregate. -/
theorem change_suppression_counterexample :
    average [(0, 0, 0), (2, 2, 2)] = average [(2, 2, 2), (0, 0, 0)] ∧
    get_average_color (.ok [(0, 0, 0), (2, 2, 2)]) .connectFail .connectFail
        ⟨true, [1, 2], none⟩ =
      .ret ⟨true, [1, 2], some [(0, 0, 0), (2, 2, 2)]⟩ (some (1, 1, 1)) ∧
    get_average_color (.ok [(2, 2, 2), (0, 0, 0)]) .connectFail .connectFail
        ⟨true, [1, 2], some [(0, 0, 0), (2, 2, 2)]⟩ =
      .ret ⟨true, [1, 2], some [(2, 2, 2), (0, 0, 0)]⟩ (some (1, 1, 1)) := by
  refine ⟨by decide, by decide, by decide⟩

/-- C1 (amended, proved): change suppression is keyed on the full
per-LED reading, not the aggregate: a reading equal to `last_colors`
yields nothing and leaves the state unchanged; a different reading
stores itself into `last_colors` and yields the aggregate; hence two
consecutive calls with the identical per-LED reading yield no color on
the second call. -/
theorem change_suppression_on_readings (s : ICueState)
    (colors : List LedColor) (o1 o2 o3 o4 : ReconnectOutcome)
    (hdev : s.device = true) (hids : s.led_ids ≠ []) (hne : colors ≠ []) :
    (some colors = s.last_colors →
      get_average_color (.ok colors) o1 o2 s = .ret s none) ∧
    (some colors ≠ s.last_colors →
      get_average_color (.ok colors) o1 o2 s =
        .ret { s with last_colors := some colors } (some (average colors))) ∧
    get_average_color (.ok colors) o3 o4
        { s with last_colors := some colors } =
      .ret { s with last_colors := some colors } none := by
  refine ⟨?_, ?_, ?_⟩
  · intro hch
    rw [get_average_color]
    simp [hdev, hids, hne, hch]
  · intro hch
    rw [get_average_color]
    simp [hdev, hids, hne, hch]
  · rw [get_average_color]
    simp [hdev, hids, hne]

/-- Witness for `change_suppression_on_readings`. -/
theorem change_suppression_on_readings_witness :
    ((⟨true, [7], none⟩ : ICueState).device = true ∧
     (⟨true, [7], none⟩ : ICueState).led_ids ≠ [] ∧
     ([(3, 4, 5)] : List LedColor) ≠ []) ∧
    ((some [(3, 4, 5)] = (⟨true, [7], none⟩ : ICueState).last_colors →
      get_average_color (.ok [(3, 4, 5)]) .connectFail .connectFail
          ⟨true, [7], none⟩ = .ret ⟨true, [7], none⟩ none) ∧
     (some [(3, 4, 5)] ≠ (⟨true, [7], none⟩ : ICueState).last_colors →
      get_average_color (.ok [(3, 4, 5)]) .connectFail .connectFail
          ⟨true, [7], none⟩ =
        .ret ⟨true, [7], some [(3, 4, 5)]⟩ (some (average [(3, 4, 5)]))) ∧
     get_average_color (.ok [(3, 4, 5)]) .deviceNotFound .deviceNotFound
         ⟨true, [7], some [(3, 4, 5)]⟩ =
       .ret ⟨true, [7], some [(3, 4, 5)]⟩ none) :=
  ⟨⟨rfl, by decide, by decide⟩,
   change_suppression_on_readings ⟨true, [7], none⟩ [(3, 4, 5)]
     .connectFail .connectFail .deviceNotFound .deviceNotFound
     rfl (by decide) (by decide)⟩

/-- C3 counterexample: a read that returns no elements (and likewise a
read that raises) on a state whose `reconnect()` then fails makes
`get_average_color` raise to its caller — `reconnect` re-raises at
line 187, so an SDK exception does cross into the bridge loop. -/
theorem sample_raises_counterexample :
    get_average_color (.ok []) .connectFail .connectFail
        ⟨true, [1], none⟩ = .raise ⟨true, [1], none⟩ ∧
    get_average_color .exn .connectFail .connectFail
        ⟨true, [1], none⟩ = .raise ⟨true, [1], none⟩ := by
  refine ⟨by decide, by decide⟩

/-- C3 (amended, proved): when the per-element read fails or returns
no elements, `get_average_color` triggers `reconnect()` and, provided
that reconnect succeeds, returns `None` for the cycle without raising
(the state shows the reconnect ran: device re-resolved, LED ids
re-discovered); only a failing `reconnect()` lets the exception
propagate to the caller. -/
theorem sample_no_raise_when_reconnect_succeeds (s : ICueState)
    (ids : List ℕ) (o2 : ReconnectOutcome)
    (hdev : s.device = true) (hids : s.led_ids ≠ []) :
    get_average_color .exn (.ok ids) o2 s =
      .ret { s with device := true, led_ids := ids } none ∧
    get_average_color (.ok []) (.ok ids) o2 s =
      .ret { s with device := true, led_ids := ids } none := by
  constructor <;> rw [get_average_color] <;> simp [hdev, hids, reconnect]

/-- Witness for `sample_no_raise_when_reconnect_succeeds`. -/
theorem sample_no_raise_when_reconnect_succeeds_witness :
    ((⟨true, [1], none⟩ : ICueState).device = true ∧
     (⟨true, [1], none⟩ : ICueState).led_ids ≠ []) ∧
    (get_average_color .exn (.ok [2, 3]) .connectFail ⟨true, [1], none⟩ =
       .ret ⟨true, [2, 3], none⟩ none ∧
     get_average_color (.ok []) (.ok [2, 3]) .connectFail
         ⟨true, [1], none⟩ =
       .ret ⟨true, [2, 3], none⟩ none) :=
  ⟨⟨rfl, by decide⟩,
   sample_no_raise_when_reconnect_succeeds ⟨true, [1], none⟩ [2, 3]
     .connectFail rfl (by decide)⟩

/-- C4 counterexample: a read failure (no elements) on a state holding
`last_colors = some [(5,5,5)]` followed by a successful `reconnect()`
leaves `last_colors` untouched, and the next call whose reading is the
identical pre-failure `[(5,5,5)]` returns nothing — it IS suppressed,
contradicting the claimed post-reconnect reset. -/
theorem post_reconnect_reset_counterexample :
    get_average_color (.ok []) (.ok [1]) .connectFail
        ⟨true, [1], some [(5, 5, 5)]⟩ =
      .ret ⟨true, [1], some [(5, 5, 5)]⟩ none ∧
    get_average_color (.ok [(5, 5, 5)]) .connectFail .connectFail
        ⟨true, [1], some [(5, 5, 5)]⟩ =
      .ret ⟨true, [1], some [(5, 5, 5)]⟩ none := by
  refine ⟨by decide, by decide⟩

/-- C4 (amended, proved): `last_colors` starts as unknown on
construction, but `reconnect()` preserves it, so after a read failure
followed by a successful reconnect the next `get_average_color` call
IS suppressed when its reading equals the pre-failure one. -/
theorem last_colors_reset_policy (s : ICueState) (ids ids2 : List ℕ)
    (colors : List LedColor) (o1 o2 : ReconnectOutcome)
    (hlast : s.last_colors = some colors) (hne : colors ≠ []) :
    iCueController_init true true ids = some ⟨true, ids, none⟩ ∧
    reconnect (.ok ids2) s =
      .ret { s with device := true, led_ids := ids2 } () ∧
    ({ s with device := true, led_ids := ids2 } : ICueState).last_colors =
      some colors ∧
    (ids2 ≠ [] →
      get_average_color (.ok colors) o1 o2
          { s with device := true, led_ids := ids2 } =
        .ret { s with device := true, led_ids := ids2 } none) := by
  refine ⟨rfl, rfl, by simpa using hlast, ?_⟩
  intro hids2
  rw [get_average_color]
  simp [hids2, hlast, hne]

/-- Witness for `last_colors_reset_policy`. -/
theorem last_colors_reset_policy_witness :
    ((⟨true, [1], some [(5, 5, 5)]⟩ : ICueState).last_colors =
       some [(5, 5, 5)] ∧ ([(5, 5, 5)] : List LedColor) ≠ []) ∧
    (iCueController_init true true [9] = some ⟨true, [9], none⟩ ∧
     reconnect (.ok [1]) ⟨true, [1], some [(5, 5, 5)]⟩ =
       .ret ⟨true, [1], some [(5, 5, 5)]⟩ () ∧
     (⟨true, [1], some [(5, 5, 5)]⟩ : ICueState).last_colors =
       some [(5, 5, 5)] ∧
     (([1] : List ℕ) ≠ [] →
       get_average_color (.ok [(5, 5, 5)]) .connectFail .connectFail
           ⟨true, [1], some [(5, 5, 5)]⟩ =
         .ret ⟨true, [1], some [(5, 5, 5)]⟩ none)) :=
  ⟨⟨rfl, by decide⟩,
   last_colors_reset_policy ⟨true, [1], some [(5, 5, 5)]⟩ [9] [1]
     [(5, 5, 5)] .connectFail .connectFail rfl (by decide)⟩

/-- C6 (confirmed): on an actuator with unknown `last_color` — the
state `MagicHomeController_init` produces — a `set_color` whose
connect succeeds applies the target color directly with exactly one
device write and no interpolated intermediate steps. -/
theorem first_command_no_fade (s : MHState) (E : Color)
    (writeOk : ℕ → Bool) (hl : s.last_color = none)
    (hw1 : writeOk 1 = true) :
    set_color true writeOk s E =
      ({ s with bulb := true, last_color := some E }, [E]) ∧
    MagicHomeController_init.last_color = none := by
  obtain ⟨b, lc, ts⟩ := s
  have hl' : lc = none := hl
  subst hl'
  exact ⟨set_color_direct E b ts writeOk hw1, rfl⟩

/-- Witness for `first_command_no_fade` on a freshly constructed
actuator. -/
theorem first_command_no_fade_witness :
    (MagicHomeController_init.last_color = none ∧
     (fun (_ : ℕ) => true) 1 = true) ∧
    (set_color true (fun _ => true) MagicHomeController_init
        (10, 20, 30) =
      ((⟨true, some (10, 20, 30), 10⟩ : MHState), [(10, 20, 30)]) ∧
     MagicHomeController_init.last_color = none) :=
  ⟨⟨rfl, rfl⟩,
   first_command_no_fade MagicHomeController_init (10, 20, 30)
     (fun _ => true) rfl rfl⟩

/-- C7 (confirmed): with a known `last_color`, a fade whose k-th of n
steps fails attempts exactly k device writes (the prefix of the
interpolation sequence), marks the actuator disconnected, attempts no
further step and leaves `last_color` unchanged; when every step
succeeds, `last_color` is updated to the final color. -/
theorem fail_fast_mid_fade (s : MHState) (S E : Color) (n k : ℕ)
    (co : Bool) (writeOk writeOk2 : ℕ → Bool)
    (hb : s.bulb = true) (hl : s.last_color = some S)
    (hn : s.transition_steps = n)
    (h1k : 1 ≤ k) (hkn : k ≤ n)
    (hw : ∀ i, 1 ≤ i → i < k → writeOk i = true) (hf : writeOk k = false)
    (hw2 : ∀ i, 1 ≤ i → i ≤ n → writeOk2 i = true) :
    set_color co writeOk s E =
      ({ s with bulb := false }, (fadeSequence S E n).take k) ∧
    ((fadeSequence S E n).take k).length = k ∧
    ({ s with bulb := false } : MHState).last_color = some S ∧
    set_color co writeOk2 s E =
      ({ s with last_color := some E }, fadeSequence S E n) := by
  obtain ⟨b, lc, ts⟩ := s
  have hb' : b = true := hb
  have hl' : lc = some S := hl
  have hn' : n = ts := hn.symm
  subst hb' hl' hn'
  refine ⟨set_color_fade_fail S E n k co writeOk h1k hkn hw hf, ?_, rfl,
    set_color_fade_all_ok S E n co writeOk2 hw2⟩
  rw [List.length_take, fadeSequence, List.length_map, List.length_range']
  omega

/-- Witness for `fail_fast_mid_fade`: the 3rd of 10 steps fails. -/
theorem fail_fast_mid_fade_witness :
    ((⟨true, some (0, 0, 0), 10⟩ : MHState).bulb = true ∧
     (⟨true, some (0, 0, 0), 10⟩ : MHState).last_color = some (0, 0, 0) ∧
     (⟨true, some (0, 0, 0), 10⟩ : MHState).transition_steps = 10 ∧
     1 ≤ 3 ∧ 3 ≤ 10 ∧
     (∀ i, 1 ≤ i → i < 3 → (fun j => decide (j < 3)) i = true) ∧
     (fun j => decide (j < 3)) 3 = false ∧
     (∀ i, 1 ≤ i → i ≤ 10 → (fun (_ : ℕ) => true) i = true)) ∧
    (set_color true (fun j => decide (j < 3)) ⟨true, some (0, 0, 0), 10⟩
        (100, 200, 50) =
      (⟨false, some (0, 0, 0), 10⟩,
        (fadeSequence (0, 0, 0) (100, 200, 50) 10).take 3) ∧
     ((fadeSequence (0, 0, 0) (100, 200, 50) 10).take 3).length = 3 ∧
     (⟨false, some (0, 0, 0), 10⟩ : MHState).last_color = some (0, 0, 0) ∧
     set_color true (fun _ => true) ⟨true, some (0, 0, 0), 10⟩
        (100, 200, 50) =
      (⟨true, some (100, 200, 50), 10⟩,
        fadeSequence (0, 0, 0) (100, 200, 50) 10)) :=
  ⟨⟨rfl, rfl, rfl, by decide, by decide,
    fun i h1 h2 => decide_eq_true h2, by decide, fun i h1 h2 => rfl⟩,
   fail_fast_mid_fade ⟨true, some (0, 0, 0), 10⟩ (0, 0, 0) (100, 200, 50)
     10 3 true (fun j => decide (j < 3)) (fun _ => true) rfl rfl rfl
     (by decide) (by decide) (fun i h1 h2 => decide_eq_true h2) (by decide)
     (fun i h1 h2 => rfl)⟩

lemma fadeSequence_length (S E : Color) (n : ℕ) :
    (fadeSequence S E n).length = n := by
  rw [fadeSequence, List.length_map, List.length_range']

lemma fadeSequence_getD (S E : Color) (n i : ℕ) (d : Color) (h : i < n) :
    (fadeSequence S E n).getD i d =
      interpolate_color S E (((1 + i : ℕ) : ℚ) / (n : ℚ)) := by
  have hlen : i < (List.range' 1 n).length := by
    rw [List.length_range']; exact h
  rw [fadeSequence, List.getD_eq_getElem?_getD, List.getElem?_map,
    List.getElem?_eq_getElem hlen]
  simp [List.getElem_range']

lemma fadeSequence_mem {S E : Color} {n : ℕ} {c : Color}
    (h : c ∈ fadeSequence S E n) :
    ∃ i : ℕ, 1 ≤ i ∧ i ≤ n ∧
      c = interpolate_color S E ((i : ℚ) / (n : ℚ)) := by
  rw [fadeSequence] at h
  obtain ⟨i, hi, rfl⟩ := List.mem_map.mp h
  have h2 := List.mem_range'_1.mp hi
  exact ⟨i, h2.1, by omega, rfl⟩

lemma fadeSequence_getLast_ten (S E : Color) :
    (fadeSequence S E 10).getLast? = some E := by
  have h1 : (((10 : ℕ) : ℚ) / ((10 : ℕ) : ℚ)) = 1 := by norm_num
  rw [fadeSequence, show List.range' 1 10 = [1, 2, 3, 4, 5, 6, 7, 8, 9, 10]
    from rfl]
  simp only [List.map_cons, List.map_nil, List.getLast?_cons_cons,
    List.getLast?_singleton]
  rw [h1, interpolate_color_one]

/-- C5 (confirmed): with a known `last_color` `S` and 10 steps, an
all-writes-succeed `set_color` to `E` commands exactly the sequence
`interpolate_color S E (i/10)` for `i = 1..10` (the `i = 0` start
point is never re-sent), whose entries per channel follow the
truncated linear-interpolation formula, form a monotonic sequence in
the direction of the change, stay within the `[start, end]` range per
channel, and whose 10th entry equals `E` exactly. -/
theorem fade_interpolation (s : MHState) (S E : Color) (co : Bool)
    (writeOk : ℕ → Bool)
    (hb : s.bulb = true) (hl : s.last_color = some S)
    (hn : s.transition_steps = 10) (hw : ∀ i, writeOk i = true)
    (hS : 0 ≤ S.1 ∧ S.1 ≤ 255 ∧ 0 ≤ S.2.1 ∧ S.2.1 ≤ 255 ∧
          0 ≤ S.2.2 ∧ S.2.2 ≤ 255)
    (hE : 0 ≤ E.1 ∧ E.1 ≤ 255 ∧ 0 ≤ E.2.1 ∧ E.2.1 ≤ 255 ∧
          0 ≤ E.2.2 ∧ E.2.2 ≤ 255) :
    set_color co writeOk s E =
      ({ s with last_color := some E }, fadeSequence S E 10) ∧
    (fadeSequence S E 10).length = 10 ∧
    (∀ i, i < 10 → (fadeSequence S E 10).getD i E =
      interpolate_color S E (((1 + i : ℕ) : ℚ) / ((10 : ℕ) : ℚ))) ∧
    (∀ i j, i ≤ j → j < 10 →
      ((S.1 ≤ E.1 → ((fadeSequence S E 10).getD i E).1 ≤
          ((fadeSequence S E 10).getD j E).1) ∧
       (E.1 ≤ S.1 → ((fadeSequence S E 10).getD j E).1 ≤
          ((fadeSequence S E 10).getD i E).1)) ∧
      ((S.2.1 ≤ E.2.1 → ((fadeSequence S E 10).getD i E).2.1 ≤
          ((fadeSequence S E 10).getD j E).2.1) ∧
       (E.2.1 ≤ S.2.1 → ((fadeSequence S E 10).getD j E).2.1 ≤
          ((fadeSequence S E 10).getD i E).2.1)) ∧
      ((S.2.2 ≤ E.2.2 → ((fadeSequence S E 10).getD i E).2.2 ≤
          ((fadeSequence S E 10).getD j E).2.2) ∧
       (E.2.2 ≤ S.2.2 → ((fadeSequence S E 10).getD j E).2.2 ≤
          ((fadeSequence S E 10).getD i E).2.2))) ∧
    (∀ c ∈ fadeSequence S E 10,
      (min S.1 E.1 ≤ c.1 ∧ c.1 ≤ max S.1 E.1) ∧
      (min S.2.1 E.2.1 ≤ c.2.1 ∧ c.2.1 ≤ max S.2.1 E.2.1) ∧
      (min S.2.2 E.2.2 ≤ c.2.2 ∧ c.2.2 ≤ max S.2.2 E.2.2)) ∧
    (fadeSequence S E 10).getLast? = some E := by
  obtain ⟨hS1, hS1u, hS2, hS2u, hS3, hS3u⟩ := hS
  obtain ⟨hE1, hE1u, hE2, hE2u, hE3, hE3u⟩ := hE
  have hp0 : ∀ i : ℕ, (0 : ℚ) ≤ ((1 + i : ℕ) : ℚ) / ((10 : ℕ) : ℚ) := by
    intro i; positivity
  have hp1 : ∀ i : ℕ, i < 10 → ((1 + i : ℕ) : ℚ) / ((10 : ℕ) : ℚ) ≤ 1 := by
    intro i h
    rw [div_le_one (by norm_num)]
    have h2 : (1 + i : ℕ) ≤ (10 : ℕ) := by omega
    exact_mod_cast h2
  have hpm : ∀ i j : ℕ, i ≤ j →
      ((1 + i : ℕ) : ℚ) / ((10 : ℕ) : ℚ) ≤
        ((1 + j : ℕ) : ℚ) / ((10 : ℕ) : ℚ) := by
    intro i j hij
    gcongr
  refine ⟨?_, fadeSequence_length S E 10,
    fun i h => fadeSequence_getD S E 10 i E h, ?_, ?_,
    fadeSequence_getLast_ten S E⟩
  · obtain ⟨b, lc, ts⟩ := s
    have hb' : b = true := hb
    have hl' : lc = some S := hl
    have hn' : ts = 10 := hn
    subst hb' hl' hn'
    exact set_color_fade_all_ok S E 10 co writeOk (fun i h1 h2 => hw i)
  · intro i j hij hj
    have hi : i < 10 := lt_of_le_of_lt hij hj
    rw [fadeSequence_getD S E 10 i E hi, fadeSequence_getD S E 10 j E hj]
    exact ⟨⟨fun hse => interpCh_mono hS1 hE1 hse (hp0 i) (hpm i j hij) (hp1 j hj),
            fun hes => interpCh_anti hS1 hE1 hes (hp0 i) (hpm i j hij) (hp1 j hj)⟩,
           ⟨fun hse => interpCh_mono hS2 hE2 hse (hp0 i) (hpm i j hij) (hp1 j hj),
            fun hes => interpCh_anti hS2 hE2 hes (hp0 i) (hpm i j hij) (hp1 j hj)⟩,
           ⟨fun hse => interpCh_mono hS3 hE3 hse (hp0 i) (hpm i j hij) (hp1 j hj),
            fun hes => interpCh_anti hS3 hE3 hes (hp0 i) (hpm i j hij) (hp1 j hj)⟩⟩
  · intro c hc
    obtain ⟨i, h1i, hi10, rfl⟩ := fadeSequence_mem hc
    have hq0 : (0 : ℚ) ≤ (i : ℚ) / ((10 : ℕ) : ℚ) := by positivity
    have hq1 : (i : ℚ) / ((10 : ℕ) : ℚ) ≤ 1 := by
      rw [div_le_one (by norm_num)]
      exact_mod_cast hi10
    exact ⟨interpCh_bounds hS1 hE1 hq0 hq1,
           interpCh_bounds hS2 hE2 hq0 hq1,
           interpCh_bounds hS3 hE3 hq0 hq1⟩

/-- Witness for `fade_interpolation` at the spec's example: start
`(0,0,0)`, end `(100,200,50)`, 10 steps, all writes succeeding. -/
theorem fade_interpolation_witness :
    ((⟨true, some (0, 0, 0), 10⟩ : MHState).bulb = true ∧
     (⟨true, some (0, 0, 0), 10⟩ : MHState).last_color = some (0, 0, 0) ∧
     (⟨true, some (0, 0, 0), 10⟩ : MHState).transition_steps = 10 ∧
     (∀ i : ℕ, (fun (_ : ℕ) => true) i = true) ∧
     (0 ≤ ((0, 0, 0) : Color).1 ∧ ((0, 0, 0) : Color).1 ≤ 255 ∧
      0 ≤ ((0, 0, 0) : Color).2.1 ∧ ((0, 0, 0) : Color).2.1 ≤ 255 ∧
      0 ≤ ((0, 0, 0) : Color).2.2 ∧ ((0, 0, 0) : Color).2.2 ≤ 255) ∧
     (0 ≤ ((100, 200, 50) : Color).1 ∧ ((100, 200, 50) : Color).1 ≤ 255 ∧
      0 ≤ ((100, 200, 50) : Color).2.1 ∧ ((100, 200, 50) : Color).2.1 ≤ 255 ∧
      0 ≤ ((100, 200, 50) : Color).2.2 ∧
      ((100, 200, 50) : Color).2.2 ≤ 255)) ∧
    set_color true (fun _ => true) ⟨true, some (0, 0, 0), 10⟩
        (100, 200, 50) =
      ((⟨true, some (100, 200, 50), 10⟩ : MHState),
        fadeSequence (0, 0, 0) (100, 200, 50) 10) ∧
    (fadeSequence (0, 0, 0) (100, 200, 50) 10).getLast? =
      some (100, 200, 50) :=
  ⟨⟨rfl, rfl, rfl, fun i => rfl, by decide, by decide⟩,
   (fade_interpolation ⟨true, some (0, 0, 0), 10⟩ (0, 0, 0) (100, 200, 50)
      true (fun _ => true) rfl rfl rfl (fun i => rfl) (by decide)
      (by decide)).1,
   (fade_interpolation ⟨true, some (0, 0, 0), 10⟩ (0, 0, 0) (100, 200, 50)
      true (fun _ => true) rfl rfl rfl (fun i => rfl) (by decide)
      (by decide)).2.2.2.2.2⟩

lemma bridge_loop_count (ticks : List TickOracle) (mh : MHState) :
    (bridge_loop ticks mh).1.count BridgeAction.turnOffCall = 0 := by
  induction ticks generalizing mh with
  | nil => simp [bridge_loop]
  | cons t rest ih =>
    rw [bridge_loop]
    cases h : t.sampled with
    | none => exact ih mh
    | some c =>
      simp [List.count_cons, ih]

/-- C8 (confirmed): on every exit path of the running bridge loop —
interrupt or an exception escaping a tick, any sequence of completed
ticks, any turn-off connect/write outcome — `start_bridge` invokes
`turn_off` exactly once, as the last actuator call before returning,
and returns normally even when the turn-off itself fails
(`turn_off`'s Lean type is total: the Python method catches every
exception internally, lines 250-263). -/
theorem guaranteed_power_off (ticks : List TickOracle) (e : LoopExit)
    (mh0 : MHState) (oc ow : Bool) :
    (start_bridge true ticks e mh0 oc ow).trace.count
        BridgeAction.turnOffCall = 1 ∧
    (start_bridge true ticks e mh0 oc ow).trace.getLast? =
      some BridgeAction.turnOffCall ∧
    (start_bridge true ticks e mh0 oc ow).returnsNormally = true := by
  have htr : (start_bridge true ticks e mh0 oc ow).trace =
      (bridge_loop ticks mh0).1 ++ [BridgeAction.turnOffCall] := by
    cases e <;> rfl
  have hrn : (start_bridge true ticks e mh0 oc ow).returnsNormally = true := by
    cases e <;> rfl
  refine ⟨?_, ?_, hrn⟩
  · rw [htr, List.count_append, bridge_loop_count]
    rfl
  · rw [htr, List.getLast?_concat]

/-- C9 (confirmed): given per-element readings with channels in
[0,255], every channel of the aggregate `average` is at most 255 (it
is a natural number, hence non-negative), and every channel of every
commanded fade color lies in [0,255] when start and end do. -/
theorem channel_range_invariant (colors : List LedColor) (S E : Color)
    (hcol : ∀ c ∈ colors, c.1 ≤ 255 ∧ c.2.1 ≤ 255 ∧ c.2.2 ≤ 255)
    (hS : 0 ≤ S.1 ∧ S.1 ≤ 255 ∧ 0 ≤ S.2.1 ∧ S.2.1 ≤ 255 ∧
          0 ≤ S.2.2 ∧ S.2.2 ≤ 255)
    (hE : 0 ≤ E.1 ∧ E.1 ≤ 255 ∧ 0 ≤ E.2.1 ∧ E.2.1 ≤ 255 ∧
          0 ≤ E.2.2 ∧ E.2.2 ≤ 255) :
    ((average colors).1 ≤ 255 ∧ (average colors).2.1 ≤ 255 ∧
     (average colors).2.2 ≤ 255) ∧
    (∀ c ∈ fadeSequence S E 10,
      (0 ≤ c.1 ∧ c.1 ≤ 255) ∧ (0 ≤ c.2.1 ∧ c.2.1 ≤ 255) ∧
      (0 ≤ c.2.2 ∧ c.2.2 ≤ 255)) := by
  obtain ⟨hS1, hS1u, hS2, hS2u, hS3, hS3u⟩ := hS
  obtain ⟨hE1, hE1u, hE2, hE2u, hE3, hE3u⟩ := hE
  constructor
  · have h1 := sum_div_length_le (l := colors.map (fun c => c.1))
      (B := 255) (by
        intro x hx
        obtain ⟨c, hc, rfl⟩ := List.mem_map.mp hx
        exact (hcol c hc).1)
    have h2 := sum_div_length_le (l := colors.map (fun c => c.2.1))
      (B := 255) (by
        intro x hx
        obtain ⟨c, hc, rfl⟩ := List.mem_map.mp hx
        exact (hcol c hc).2.1)
    have h3 := sum_div_length_le (l := colors.map (fun c => c.2.2))
      (B := 255) (by
        intro x hx
        obtain ⟨c, hc, rfl⟩ := List.mem_map.mp hx
        exact (hcol c hc).2.2)
    rw [List.length_map] at h1 h2 h3
    exact ⟨h1, h2, h3⟩
  · intro c hc
    obtain ⟨i, h1i, hi10, rfl⟩ := fadeSequence_mem hc
    have hq0 : (0 : ℚ) ≤ (i : ℚ) / ((10 : ℕ) : ℚ) := by positivity
    have hq1 : (i : ℚ) / ((10 : ℕ) : ℚ) ≤ 1 := by
      rw [div_le_one (by norm_num)]
      exact_mod_cast hi10
    have b1 := interpCh_bounds hS1 hE1 hq0 hq1
    have b2 := interpCh_bounds hS2 hE2 hq0 hq1
    have b3 := interpCh_bounds hS3 hE3 hq0 hq1
    exact ⟨⟨le_trans (le_min hS1 hE1) b1.1, le_trans b1.2 (max_le hS1u hE1u)⟩,
           ⟨le_trans (le_min hS2 hE2) b2.1, le_trans b2.2 (max_le hS2u hE2u)⟩,
           ⟨le_trans (le_min hS3 hE3) b3.1, le_trans b3.2 (max_le hS3u hE3u)⟩⟩

/-- Witness for `channel_range_invariant` at concrete readings and a
concrete fade. -/
theorem channel_range_invariant_witness :
    ((∀ c ∈ ([(255, 0, 0), (0, 255, 0)] : List LedColor),
       c.1 ≤ 255 ∧ c.2.1 ≤ 255 ∧ c.2.2 ≤ 255) ∧
     (0 ≤ ((0, 0, 0) : Color).1 ∧ ((0, 0, 0) : Color).1 ≤ 255 ∧
      0 ≤ ((0, 0, 0) : Color).2.1 ∧ ((0, 0, 0) : Color).2.1 ≤ 255 ∧
      0 ≤ ((0, 0, 0) : Color).2.2 ∧ ((0, 0, 0) : Color).2.2 ≤ 255) ∧
     (0 ≤ ((100, 200, 50) : Color).1 ∧ ((100, 200, 50) : Color).1 ≤ 255 ∧
      0 ≤ ((100, 200, 50) : Color).2.1 ∧ ((100, 200, 50) : Color).2.1 ≤ 255 ∧
      0 ≤ ((100, 200, 50) : Color).2.2 ∧
      ((100, 200, 50) : Color).2.2 ≤ 255)) ∧
    (((average [(255, 0, 0), (0, 255, 0)]).1 ≤ 255 ∧
      (average [(255, 0, 0), (0, 255, 0)]).2.1 ≤ 255 ∧
      (average [(255, 0, 0), (0, 255, 0)]).2.2 ≤ 255) ∧
     (∀ c ∈ fadeSequence (0, 0, 0) (100, 200, 50) 10,
       (0 ≤ c.1 ∧ c.1 ≤ 255) ∧ (0 ≤ c.2.1 ∧ c.2.1 ≤ 255) ∧
       (0 ≤ c.2.2 ∧ c.2.2 ≤ 255))) :=
  ⟨⟨by decide, by decide, by decide⟩,
   channel_range_invariant [(255, 0, 0), (0, 255, 0)] (0, 0, 0)
     (100, 200, 50) (by decide) (by decide) (by decide)⟩
